import Mathlib

/-!
Verification of the render-state and resource caching engine
(texture pool, multi-draw range buffer, pipeline cache, command
encoder bind-state tracking, bind groups) against its specification.

Each definition is a shallow embedding of the corresponding source
function; machine-integer effects (JavaScript 32-bit `<<` and typed-array
stores) are made explicit with `toInt32` / `toUint32` where they matter.
-/

/-- Wrap a natural number the way a JavaScript 32-bit bitwise operation
does: reduce mod 2^32 and reinterpret as a signed 32-bit value. -/
def toInt32 (n : Nat) : Int :=
  if n % 4294967296 < 2147483648 then ((n % 4294967296 : Nat) : Int)
  else ((n % 4294967296 : Nat) : Int) - 4294967296

/-- Wrap an integer the way a store into an `Int32Array` slot does
(ToInt32 of the numeric value). -/
def intToInt32 (x : Int) : Int :=
  let m := (x % 4294967296).toNat
  if m < 2147483648 then (m : Int) else (m : Int) - 4294967296

/-- Wrap an integer the way a store into a `Uint32Array` slot does. -/
def intToUint32 (x : Int) : Int :=
  x % 4294967296

/-! ## Texture pool (`TexturePoolClass`)

The pool keeps free lists of render textures bucketed by a signed key:
positive keys are power-of-two buckets, negative keys are
screen-relative buckets.  Textures are identified here by their uid
(`texturePool_${count++}` labels in the source); `createTexture` is
modelled as drawing a fresh uid from a counter. -/

/-- Doubling loop underlying `nextPow2`, with fuel (the candidate
power doubles every step, so fuel `v` always suffices). -/
def nextPow2Aux (fuel v p : Nat) : Nat :=
  match fuel with
  | 0 => p
  | fuel + 1 => if v ≤ p then p else nextPow2Aux fuel v (2 * p)

/-- Modelled from the spec: `nextPow2` (imported from the maths package,
which is not part of the provided sources) rounds a dimension up to the
next power of two ("round each dimension up to the next power of two"). -/
def nextPow2 (v : Nat) : Nat :=
  nextPow2Aux v v 1

/-- One shrink step of the screen-relative sizing loop:
`Math.ceil(screenWidth / factor)` with the default
`screenSizeFactor = 1.4` modelled as the exact rational 7/5,
so the step is the ceiling of `5 * s / 7`. -/
def shrinkStep (s : Nat) : Nat :=
  (5 * s + 6) / 7

/-- The `while (width <= Math.ceil(screenWidth / factor))` loop of
`getOptimalTexture`, written with explicit fuel (the loop strictly
shrinks the tracked size while it runs, so fuel `s` is always enough
for the reachable states). -/
def shrinkFit (fuel : Nat) (width s : Nat) : Nat :=
  match fuel with
  | 0 => s
  | fuel + 1 =>
    if width ≤ shrinkStep s then shrinkFit fuel width (shrinkStep s) else s

/-- Pool state: bucket free lists (`_texturePool`, `none` = the bucket
object was never created or was purged), the uid → bucket-key record
(`_poolKeyHash`), the tracked output-surface size in pixels, the
regime threshold (`screenThreshold`, default 512) and the fresh-uid
counter backing `createTexture`. -/
structure TexturePool where
  pool : Int → Option (List Nat)
  poolKeyHash : Nat → Option Int
  pixelsWidth : Nat
  pixelsHeight : Nat
  screenThreshold : Nat
  nextUid : Nat

/-- The unsigned part of a bucket key:
`(width << 16) + (height << 2) + (antialias ? 1 : 0) + (hdr ? 2 : 0)`,
with each JavaScript `<<` wrapping to Int32 and the additions exact. -/
def texSubKey (w h : Nat) (antialias hdr : Bool) : Int :=
  toInt32 (w <<< 16) + toInt32 (h <<< 2)
    + (if antialias then 1 else 0) + (if hdr then 2 else 0)

/-- The bucket key chosen by `getOptimalTexture` for a request of
`w × h` pixels (the already resolution-scaled sizes): the power-of-two
regime (sign +1) is taken when the request is screen-exempt, at most
the threshold in either dimension, or larger than the tracked surface;
otherwise the tracked surface is repeatedly shrunk by the screen factor
and the result keyed with sign −1. -/
def optimalKey (p : TexturePool) (w h : Nat) (antialias hdr ignoreScreen : Bool) : Int :=
  if ignoreScreen = true ∨ w ≤ p.screenThreshold ∨ h ≤ p.screenThreshold
      ∨ p.pixelsWidth < w ∨ p.pixelsHeight < h then
    texSubKey (nextPow2 w) (nextPow2 h) antialias hdr
  else
    - texSubKey (shrinkFit p.pixelsWidth w p.pixelsWidth)
        (shrinkFit p.pixelsHeight h p.pixelsHeight) antialias hdr

/-- Source `getOptimalTexture`: compute the bucket key, create the bucket's
free list if absent, pop a free texture (the JavaScript array is used
as a stack via push/pop; it is modelled head-first), create a fresh
texture when the bucket is empty, and record the texture's bucket key
in `_poolKeyHash`.  Returns the texture uid and the new pool state. -/
def getOptimalTexture (p : TexturePool) (w h : Nat)
    (antialias hdr ignoreScreen : Bool) : Nat × TexturePool :=
  let key := optimalKey p w h antialias hdr ignoreScreen
  match (p.pool key).getD [] with
  | [] =>
    let t := p.nextUid
    (t, { p with
      pool := fun k => if k = key then some [] else p.pool k,
      poolKeyHash := fun u => if u = t then some key else p.poolKeyHash u,
      nextUid := t + 1 })
  | t :: rest =>
    (t, { p with
      pool := fun k => if k = key then some rest else p.pool k,
      poolKeyHash := fun u => if u = t then some key else p.poolKeyHash u })

/-- Source `returnTexture`: look up the texture's recorded bucket key and push
it onto the bucket's free list if that bucket still exists; otherwise
the texture is destroyed and not recycled (the pool state is unchanged). -/
def returnTexture (p : TexturePool) (uid : Nat) : TexturePool :=
  match p.poolKeyHash uid with
  | some key =>
    match p.pool key with
    | some arr =>
      { p with pool := fun k => if k = key then some (uid :: arr) else p.pool k }
    | none => p
  | none => p

/-! ## Multi-draw range buffer (`MultiDrawBuffer`) -/

/-- Source type `DrawInstanceParameters`: fixed per-instance vertex/index counts and
the hardware-instancing flag. -/
structure DrawInstanceParameters where
  vertexPerInstance : Int
  indexPerInstance : Int
  instanced : Bool
deriving DecidableEq

/-- The `MultiDrawBuffer` state: the four parallel typed arrays modelled as
total functions (reads beyond `size` never feed a retained write in the
modelled operations), the allocated `size`, the live entry `count`, and
the optional construction-time draw parameters. -/
structure MultiDrawBuffer where
  offsets : Nat → Int
  counts : Nat → Int
  baseInstances : Nat → Int
  instanceCounts : Nat → Int
  size : Nat
  count : Nat
  params : Option DrawInstanceParameters

/-- Source `resize(sz, copyOldInfo)`: allocate zero-filled arrays of length
`sz`, copy the old entries (all below the old size) when requested, and
— when the buffer has construction-time params — pre-fill every newly
grown `counts` slot with the default vertex-per-instance count (the
store wraps through the `Int32Array`). -/
def MultiDrawBuffer.resize (b : MultiDrawBuffer) (sz : Nat) (copyOld : Bool) :
    MultiDrawBuffer :=
  let oldSize := b.size
  let base : (Nat → Int) → Nat → Int := fun old i =>
    if i < sz ∧ copyOld = true ∧ i < oldSize then old i else 0
  let counts0 := base b.counts
  let counts : Nat → Int :=
    match b.params with
    | some p => fun i =>
        if oldSize ≤ i ∧ i < sz then intToInt32 p.vertexPerInstance else counts0 i
    | none => counts0
  { offsets := base b.offsets,
    counts := counts,
    baseInstances := base b.baseInstances,
    instanceCounts := base b.instanceCounts,
    size := sz,
    count := b.count,
    params := b.params }

/-- The `while (sz > new_size) new_size *= 2` doubling loop of
`ensureSize`, with fuel (the loop diverges in the source only for a
zero-capacity buffer, which is never constructed by the callers). -/
def growSize (fuel : Nat) (s target : Nat) : Nat :=
  match fuel with
  | 0 => s
  | fuel + 1 => if target ≤ s then s else growSize fuel (2 * s) target

/-- Source `ensureSize(sz)`: grow by doubling until the capacity is at least
`sz`, copying existing entries; a request already within capacity is a
no-op. -/
def MultiDrawBuffer.ensureSize (b : MultiDrawBuffer) (sz : Nat) : MultiDrawBuffer :=
  if sz ≤ b.size then b
  else b.resize (growSize sz b.size sz) true

/-- Source `convertInstancesToVertices(params)`: when not hardware-instanced,
rewrite `offsets`/`counts` for every live entry from
base-instance × stride and instance-count × stride, using the index
stride (× 4 bytes) when indexed and the vertex stride otherwise.
The source defaults the argument with `params = params || this.params`;
the resolved parameter set is taken here as the argument.  Stores wrap
through the `Int32Array`; writes at-or-beyond `size` are dropped by the
typed array and are modelled as dropped. -/
def MultiDrawBuffer.convertInstancesToVertices (b : MultiDrawBuffer)
    (params : DrawInstanceParameters) : MultiDrawBuffer :=
  if params.instanced then b
  else if 0 < params.indexPerInstance then
    { b with
      offsets := fun j =>
        if j < b.count ∧ j < b.size then
          intToInt32 (b.baseInstances j * params.indexPerInstance * 4)
        else b.offsets j,
      counts := fun j =>
        if j < b.count ∧ j < b.size then
          intToInt32 (b.instanceCounts j * params.indexPerInstance)
        else b.counts j }
  else
    { b with
      offsets := fun j =>
        if j < b.count ∧ j < b.size then
          intToInt32 (b.baseInstances j * params.vertexPerInstance)
        else b.offsets j,
      counts := fun j =>
        if j < b.count ∧ j < b.size then
          intToInt32 (b.instanceCounts j * params.vertexPerInstance)
        else b.counts j }

/-! ## Pipeline cache (`PipelineSystem`)

Keys are modelled on `Nat` with the source's shift/or packing; the
source comments (and the spec) declare a bit budget for every sub-key
and treat overflow as a defect, so the JavaScript Int32 wrap that only
occurs outside those budgets is not modelled.  Compiled pipeline
objects are identified by the order in which `device.createRenderPipeline`
is invoked: the state carries a `nextId` counter and every creation
returns a fresh id, so "same object" is "same id" and "constructor not
invoked" is "`nextId` unchanged". -/

/-- Source `getProgKey`: pack geometry layout key, shader attribute key and
topology id into the program key. -/
def getProgKey (geometryLayout shaderKey topology : Nat) : Nat :=
  (geometryLayout <<< 13) ||| (shaderKey <<< 3) ||| topology

/-- Source `getGraphicsStateKey`: pack the per-draw discriminants into the
draw key. -/
def getGraphicsStateKey (customId depthCompareKey state blendMode : Nat) : Nat :=
  (customId <<< 15) ||| (depthCompareKey <<< 12) ||| (state <<< 5) ||| blendMode

/-- Source `getGlobalStateKey`: pack the cross-draw state into the global key;
when bit 0 of the render-target code is clear (no depth/stencil
attachment) the stencil-state id is forced to 0 before packing. -/
def getGlobalStateKey (stencilStateId multiSampleCount colorMask renderTarget hdr : Nat) : Nat :=
  let stencilStateId := if renderTarget &&& 1 = 0 then 0 else stencilStateId
  (colorMask <<< 8) ||| (stencilStateId <<< 5) ||| (renderTarget <<< 3)
    ||| (hdr <<< 1) ||| multiSampleCount

/-- The `PipelineSystem` state.  `caches` is the two-level
`_pipeStateCaches` table (global key → program key → draw key →
pipeline id; an absent partition and an empty one are both the
everywhere-`none` row).  The mutable aliases `_pipeRT` and `_pipeCache`
are JavaScript object references into that table: `_pipeRT` always
points at the `prevPipeKey` partition, and `_pipeCache` points at the
sub-cache addressed by `cacheAddr` (the (global key, program key) pair
at which it was last fetched), so reads and writes through the alias
are reads and writes of `caches` at that address.  `prevProgKey` is the
previous-program fast path (`none` models the `-1` sentinel). -/
structure PipeState where
  caches : Int → Nat → Nat → Option Nat
  cacheAddr : Int × Nat
  prevProgKey : Option Nat
  prevPipeKey : Int
  stencilMode : Nat
  multisampleCount : Nat
  colorMask : Nat
  depthStencilAttachment : Nat
  hdr : Nat
  depthCompareKey : Nat
  nextId : Nat

/-- The global key determined by the current global fields. -/
def PipeState.globalKey (s : PipeState) : Nat :=
  getGlobalStateKey s.stencilMode s.multisampleCount s.colorMask
    s.depthStencilAttachment s.hdr

/-- The draw key `getPipeline` computes for the given per-draw values
under the current state: the depth-compare sub-key participates only
when a depth attachment is active. -/
def PipeState.drawKey (s : PipeState) (customId stateData blendId : Nat) : Nat :=
  getGraphicsStateKey customId
    (if s.depthStencilAttachment &&& 1 ≠ 0 then s.depthCompareKey else 0)
    stateData blendId

/-- Source `_updatePipeHash`: recompute the global key; when it differs from
the previous one, switch `_pipeRT` to that partition (creating it if
absent — a no-op on the total table) and invalidate the
previous-program fast path. -/
def updatePipeHash (s : PipeState) : PipeState :=
  let key := s.globalKey
  if s.prevPipeKey = (key : Int) then s
  else { s with prevPipeKey := (key : Int), prevProgKey := none }

/-- Source `setStencilMode`: early-return on an unchanged mode, else store and
re-partition.  (The derived `_stencilState` lookup feeds only the
opaque pipeline construction and is not carried in the model.) -/
def PipeState.setStencilMode (s : PipeState) (mode : Nat) : PipeState :=
  if s.stencilMode = mode then s
  else updatePipeHash { s with stencilMode := mode }

/-- Source `setColorMask`: early-return on an unchanged mask, else store and
re-partition. -/
def PipeState.setColorMask (s : PipeState) (mask : Nat) : PipeState :=
  if s.colorMask = mask then s
  else updatePipeHash { s with colorMask := mask }

/-- Source `setMultisampleCount`: early-return on an unchanged count, else
store and re-partition. -/
def PipeState.setMultisampleCount (s : PipeState) (msaa : Nat) : PipeState :=
  if s.multisampleCount = msaa then s
  else updatePipeHash { s with multisampleCount := msaa }

/-- Source `setDepthCompareKey`: store only (no re-partition; the value enters
the draw key, not the global key). -/
def PipeState.setDepthCompareKey (s : PipeState) (k : Nat) : PipeState :=
  { s with depthCompareKey := k }

/-- Source `setRenderTarget`: adopt the target's sample count, its
depth/stencil attachment code (bit 0 = attachment present, bit 1 =
stencil load, derived at the call site in the source) and HDR tier,
then re-partition unconditionally. -/
def PipeState.setRenderTarget (s : PipeState) (msaa attachment hdr : Nat) : PipeState :=
  updatePipeHash { s with
    multisampleCount := msaa, depthStencilAttachment := attachment, hdr := hdr }

/-- Result of `getPipeline`: the returned pipeline id and the state
after the call. -/
structure GetPipeResult where
  pipe : Nat
  state : PipeState

/-- Source `getPipeline`: compute the program key; unless the fast path hits,
refetch `_pipeCache` from the current partition at that program key
(creating the sub-cache if absent); compute the draw key (masking the
depth-compare sub-key when no depth attachment is active); return the
cached pipeline on a hit, else create a fresh one and insert it through
the `_pipeCache` alias.  Geometry and program layout keys are the
memoized `_layoutKey` values and are taken as inputs. -/
def PipeState.getPipeline (s : PipeState)
    (geomKey shaderKey topology customId stateData blendId : Nat) : GetPipeResult :=
  let progKey := getProgKey geomKey shaderKey topology
  let s1 := if s.prevProgKey = some progKey then s
    else { s with prevProgKey := some progKey, cacheAddr := (s.prevPipeKey, progKey) }
  let key := s1.drawKey customId stateData blendId
  match s1.caches s1.cacheAddr.1 s1.cacheAddr.2 key with
  | some p => ⟨p, s1⟩
  | none =>
    ⟨s1.nextId, { s1 with
      nextId := s1.nextId + 1,
      caches := fun g pk k =>
        if g = s1.cacheAddr.1 ∧ pk = s1.cacheAddr.2 ∧ k = key then some s1.nextId
        else s1.caches g pk k }⟩

/-- The operations that drive the pipeline system between draws:
global-state setters and pipeline requests. -/
inductive PipeOp where
  | setStencilMode (mode : Nat)
  | setColorMask (mask : Nat)
  | setMultisampleCount (msaa : Nat)
  | setDepthCompareKey (k : Nat)
  | setRenderTarget (msaa attachment hdr : Nat)
  | getPipe (geomKey shaderKey topology customId stateData blendId : Nat)

/-- Apply one operation to the pipeline state. -/
def PipeState.applyOp (s : PipeState) : PipeOp → PipeState
  | .setStencilMode mode => s.setStencilMode mode
  | .setColorMask mask => s.setColorMask mask
  | .setMultisampleCount msaa => s.setMultisampleCount msaa
  | .setDepthCompareKey k => s.setDepthCompareKey k
  | .setRenderTarget msaa attachment hdr => s.setRenderTarget msaa attachment hdr
  | .getPipe g sh t c st b => (s.getPipeline g sh t c st b).state

/-- Run a sequence of operations. -/
def PipeState.run (s : PipeState) : List PipeOp → PipeState
  | [] => s
  | op :: ops => (s.applyOp op).run ops

/-- The global fields a partition is keyed by, plus the depth-compare
value that enters the draw key: "returning to state A" is this tuple
being restored. -/
def PipeState.fields (s : PipeState) : Nat × Nat × Nat × Nat × Nat × Nat :=
  (s.stencilMode, s.multisampleCount, s.colorMask,
   s.depthStencilAttachment, s.hdr, s.depthCompareKey)

/-- Consistency of the mutable aliases with the table: `_pipeRT` (and
so `prevPipeKey`) points at the partition of the current global key,
and whenever the fast-path key is armed, `_pipeCache` points at that
program's sub-cache inside the current partition. -/
def PipeState.Consistent (s : PipeState) : Prop :=
  s.prevPipeKey = (s.globalKey : Int)
  ∧ ∀ p, s.prevProgKey = some p → s.cacheAddr = (s.prevPipeKey, p)

/-! ## Command encoder (`GpuEncoderSystem`)

The per-pass "currently bound" tables and the device calls a draw
emits.  Buffers, bind groups and pipelines are identified by uid; the
resolution steps that are deterministic per input (pipeline lookup,
`getBufferNamesToBind`, `getBindGroup`) are taken as the already
resolved values carried by the draw command, exactly the quantities the
redundancy checks compare.  `group._lastLayout`, mutable state living
on each bind-group object, is carried as a map from group uid. -/

/-- A device call emitted on the render-pass encoder. -/
inductive GpuCall where
  | setPipeline (pipe : Nat)
  | setVertexBuffer (slot : Nat) (buffer : Nat)
  | setIndexBuffer (buffer : Nat)
  | setBindGroup (index : Nat) (group : Nat)
  | draw (size instanceCount start baseInstance : Nat)
  | drawIndexed (size instanceCount start baseInstance : Nat)
deriving DecidableEq

/-- Encoder bound-state: `_boundPipeline`, `_boundVertexBuffer`,
`_boundIndexBuffer`, `_boundBindGroup`, plus the `_lastLayout` field of
every bind-group object (keyed by group uid, `-1` when never bound). -/
structure EncoderState where
  boundPipeline : Option Nat
  boundVertexBuffer : Nat → Option Nat
  boundIndexBuffer : Option Nat
  boundBindGroup : Nat → Option Nat
  lastLayout : Nat → Int

/-- Source `setPipeline`: skip when the pipeline object is already bound, else
record it and emit the device call. -/
def EncoderState.setPipeline (es : EncoderState) (pipe : Nat) :
    EncoderState × List GpuCall :=
  if es.boundPipeline = some pipe then (es, [])
  else ({ es with boundPipeline := some pipe }, [GpuCall.setPipeline pipe])

/-- Source `_setVertexBuffer`: skip when the buffer is already bound at the
slot, else record and emit. -/
def EncoderState.setVertexBuffer (es : EncoderState) (slot buffer : Nat) :
    EncoderState × List GpuCall :=
  if es.boundVertexBuffer slot = some buffer then (es, [])
  else ({ es with
      boundVertexBuffer := fun i => if i = slot then some buffer else es.boundVertexBuffer i },
    [GpuCall.setVertexBuffer slot buffer])

/-- Source `_setIndexBuffer`: skip when the buffer is already the bound index
buffer, else record and emit. -/
def EncoderState.setIndexBuffer (es : EncoderState) (buffer : Nat) :
    EncoderState × List GpuCall :=
  if es.boundIndexBuffer = some buffer then (es, [])
  else ({ es with boundIndexBuffer := some buffer }, [GpuCall.setIndexBuffer buffer])

/-- Source `setBindGroup`: skip only when the same group object is bound at
the index AND its `_lastLayout` equals the program's layout key;
otherwise record both, resolve the group (`getBindGroup`) and emit. -/
def EncoderState.setBindGroup (es : EncoderState) (index group : Nat) (layout : Int) :
    EncoderState × List GpuCall :=
  if es.boundBindGroup index = some group ∧ es.lastLayout group = layout then (es, [])
  else ({ es with
      boundBindGroup := fun i => if i = index then some group else es.boundBindGroup i,
      lastLayout := fun g => if g = group then layout else es.lastLayout g },
    [GpuCall.setBindGroup index group])

/-- The vertex-buffer loop of `setGeometry`: bind the de-duplicated
buffer list slot by slot (slot = position in `getBufferNamesToBind`). -/
def EncoderState.bindVertexBuffers (es : EncoderState) (bufs : List Nat) (slot : Nat) :
    EncoderState × List GpuCall :=
  match bufs with
  | [] => (es, [])
  | b :: rest =>
    let r1 := es.setVertexBuffer slot b
    let r2 := r1.1.bindVertexBuffers rest (slot + 1)
    (r2.1, r1.2 ++ r2.2)

/-- Source `setGeometry`: bind the vertex buffers, then the index buffer when
the geometry has one. -/
def EncoderState.setGeometry (es : EncoderState) (bufs : List Nat)
    (indexBuffer : Option Nat) : EncoderState × List GpuCall :=
  let r1 := es.bindVertexBuffers bufs 0
  match indexBuffer with
  | some ib =>
    let r2 := r1.1.setIndexBuffer ib
    (r2.1, r1.2 ++ r2.2)
  | none => (r1.1, r1.2)

/-- Source `_setShaderBindGroups`: bind every (group index, group) pair of the
shader under its program layout.  (The optional uniform sync writes
buffer contents and emits no pass-encoder call, so it does not appear
in the trace.) -/
def EncoderState.setShaderBindGroups (es : EncoderState)
    (groups : List (Nat × Nat)) (layout : Int) : EncoderState × List GpuCall :=
  match groups with
  | [] => (es, [])
  | (i, g) :: rest =>
    let r1 := es.setBindGroup i g layout
    let r2 := r1.1.setShaderBindGroups rest layout
    (r2.1, r1.2 ++ r2.2)

/-- A draw submission with its deterministic resolutions already
performed: the resolved pipeline object, the de-duplicated vertex
buffer list, the optional index buffer, the shader's (index, group)
pairs and program layout key, and the draw parameters. -/
structure DrawCmd where
  pipeline : Nat
  vertexBuffers : List Nat
  indexBuffer : Option Nat
  groups : List (Nat × Nat)
  programLayout : Int
  size : Nat
  instanceCount : Nat
  start : Nat
  baseInstance : Nat

/-- The draw call a submission ends with: `drawIndexed` when the
geometry has an index buffer, else `draw`. -/
def DrawCmd.drawCall (c : DrawCmd) : GpuCall :=
  match c.indexBuffer with
  | some _ => GpuCall.drawIndexed c.size c.instanceCount c.start c.baseInstance
  | none => GpuCall.draw c.size c.instanceCount c.start c.baseInstance

/-- Source `draw`: resolve and set the pipeline, bind the geometry's buffers,
bind the shader's groups, then emit the draw (or indexed draw) call. -/
def EncoderState.draw (es : EncoderState) (c : DrawCmd) :
    EncoderState × List GpuCall :=
  let r1 := es.setPipeline c.pipeline
  let r2 := r1.1.setGeometry c.vertexBuffers c.indexBuffer
  let r3 := r2.1.setShaderBindGroups c.groups c.programLayout
  (r3.1, r1.2 ++ r2.2 ++ r3.2 ++ [c.drawCall])

/-! ## Bind group (`BindGroup`)

Resources are identified by uid and expose the volatile `_resourceId`
identity token; the per-program-layout memo table `_keys` maps a
program layout key to a `GroupProgPair` of the revision (`dirtyId`) at
which the key was last computed and the computed key string. -/

/-- A bind resource: object identity (`uid`) and its volatile
`_resourceId` token. -/
structure BindResource where
  uid : Nat
  resourceId : Nat
deriving DecidableEq

/-- Source type `GroupProgPair`: the memo record held per program layout key. -/
structure GroupProgPair where
  dirtyId : Int
  key : String
deriving DecidableEq

/-- One entry of `prog.gpuLayout[group]`: its binding index, and
whether it is a storage texture or a non-uniform (storage) buffer. -/
structure LayoutEntry where
  binding : Nat
  storageTexture : Bool
  bufferNonUniform : Bool

/-- The `BindGroup` state: the indexed resource slots, the per-program memo
table, the revision counter `_updateID` (initially `-1`) and
`_lastLayout`. -/
structure BindGroupState where
  resources : Nat → Option BindResource
  keys : Nat → Option GroupProgPair
  updateID : Int
  lastLayout : Int

/-- Key part separator (the `join('|')` separator of the source). -/
def keySep : String := "|"

/-- Storage-marker prefix (the `~` of the appended
program-layout marker). -/
def keyTilde : String := "~"

/-- Marker used where the source would dereference a missing resource
slot (which throws in JavaScript; never reached for well-formed
layouts). -/
def keyMissing : String := "!"

/-- The initial (empty) key of a freshly created `GroupProgPair`. -/
def keyEmpty : String := ""

/-- The key string `getGpuKey` computes on a memo miss: the bound
resources' `_resourceId` tokens in the layout's declaration order,
joined with the separator, with a program-layout marker appended when
any binding is storage-class. -/
def computeGpuKey (g : BindGroupState) (progLayoutKey : Nat)
    (layout : List LayoutEntry) : String :=
  let part : LayoutEntry → String := fun e =>
    match g.resources e.binding with
    | some r => toString r.resourceId
    | none => keyMissing
  let hasStorage := layout.any fun e => e.storageTexture || e.bufferNonUniform
  let parts := layout.map part
  let parts := if hasStorage then parts ++ [keyTilde ++ toString progLayoutKey] else parts
  String.intercalate keySep parts

/-- Result of `getGpuKey`: the key, the state after the call, and
whether the key was recomputed (false = the memoized string was
returned). -/
structure GpuKeyResult where
  key : String
  state : BindGroupState
  recomputed : Bool

/-- Source `getGpuKey(prog, group)`: fetch (or create, with `dirtyId = -1` and
an empty key) the program's memo record; when its `dirtyId` equals the
current revision return the memoized key, else recompute, store it with
the current revision, and return it. -/
def BindGroupState.getGpuKey (g : BindGroupState) (progLayoutKey : Nat)
    (layout : List LayoutEntry) : GpuKeyResult :=
  let fetch : GroupProgPair × BindGroupState :=
    match g.keys progLayoutKey with
    | some memo => (memo, g)
    | none =>
      let rec0 : GroupProgPair := ⟨-1, keyEmpty⟩
      (rec0, { g with
        keys := fun k => if k = progLayoutKey then some rec0 else g.keys k })
  let memo := fetch.1
  let g1 := fetch.2
  if memo.dirtyId = g1.updateID then ⟨memo.key, g1, false⟩
  else
    let key := computeGpuKey g1 progLayoutKey layout
    ⟨key, { g1 with
      keys := fun k =>
        if k = progLayoutKey then some ⟨g1.updateID, key⟩ else g1.keys k },
      true⟩

/-- Source `setResource(resource, index)`: identical resource is a no-op;
otherwise replace the slot (the change-subscription rewiring has no
further observable effect here), advance the revision counter and
reset `_lastLayout`. -/
def BindGroupState.setResource (g : BindGroupState) (resource : BindResource)
    (index : Nat) : BindGroupState :=
  if g.resources index = some resource then g
  else { g with
    resources := fun i => if i = index then some resource else g.resources i,
    updateID := g.updateID + 1,
    lastLayout := -1 }

/-- Source `onResourceChange`: advance the revision counter; when the changed
resource reports destroyed, null out every slot holding it. -/
def BindGroupState.onResourceChange (g : BindGroupState) (resource : BindResource)
    (destroyed : Bool) : BindGroupState :=
  let g1 := { g with updateID := g.updateID + 1 }
  if destroyed then
    { g1 with resources := fun i =>
        if g1.resources i = some resource then none else g1.resources i }
  else g1

/-- Revision sanity: every memo record was written at a revision no
later than the current one, and the counter never drops below its
initial `-1`.  This holds from construction and is preserved by every
operation. -/
def BindGroupState.RevBounded (g : BindGroupState) : Prop :=
  (-1 : Int) ≤ g.updateID
  ∧ ∀ pk memo, g.keys pk = some memo → memo.dirtyId ≤ g.updateID

/-! ## Arithmetic helpers -/

/-- Wrapping `toInt32` is the identity below 2^31. -/
theorem toInt32_eq_of_lt {n : Nat} (h : n < 2147483648) : toInt32 n = (n : Int) := by
  unfold toInt32
  have h2 : n % 4294967296 = n := Nat.mod_eq_of_lt (by omega)
  simp [h2, h]

/-- One shrink step never grows the tracked size. -/
theorem shrinkStep_le (s : Nat) : shrinkStep s ≤ s := by
  unfold shrinkStep
  omega

/-- The shrink loop never grows the tracked size. -/
theorem shrinkFit_le (fuel width s : Nat) : shrinkFit fuel width s ≤ s := by
  induction fuel generalizing s with
  | zero => exact Nat.le_refl s
  | succ fuel ih =>
    unfold shrinkFit
    by_cases h : width ≤ shrinkStep s
    · simp only [if_pos h]
      exact Nat.le_trans (ih (shrinkStep s)) (shrinkStep_le s)
    · simp only [if_neg h]
      exact Nat.le_refl s

/-- The shrink loop never shrinks the tracked size below the request. -/
theorem shrinkFit_ge (fuel width s : Nat) (h : width ≤ s) :
    width ≤ shrinkFit fuel width s := by
  induction fuel generalizing s with
  | zero => exact h
  | succ fuel ih =>
    unfold shrinkFit
    by_cases hw : width ≤ shrinkStep s
    · simp only [if_pos hw]
      exact ih (shrinkStep s) hw
    · simp only [if_neg hw]
      exact h

/-- A texture pool that has never seen `setScreenSize`: no buckets, no
records, a zero tracked surface and the default threshold of 512. -/
def freshPool : TexturePool :=
  ⟨fun _ => none, fun _ => none, 0, 0, 512, 0⟩

/-- A pool whose tracked output surface is 16384 × 16384 pixels
(threshold at the default 512). -/
def bigScreenPool : TexturePool :=
  ⟨fun _ => none, fun _ => none, 16384, 16384, 512, 0⟩

/-- C1 counterexample: a 10000 × 10000 request exceeds the 512
threshold in both dimensions, yet on a pool whose tracked surface is
smaller than the request (here the fresh pool) `getOptimalTexture`
takes the power-of-two branch: the bucket key is the positive-sign
pow2 key, not a negative screen-relative key. -/
theorem optimalKey_pow2_despite_threshold :
    freshPool.screenThreshold < 10000
    ∧ optimalKey freshPool 10000 10000 false false false
        = texSubKey (nextPow2 10000) (nextPow2 10000) false false
    ∧ 0 < optimalKey freshPool 10000 10000 false false false := by
  refine ⟨by decide, ?_, by decide⟩
  decide

/-- C1 (amended): a request whose scaled width and height both exceed
the threshold, are within the tracked surface, and is not
screen-exempt, lands in a screen-relative (negative-sign) bucket —
never a pow2 bucket.  (The tracked surface bound 32768 keeps the
`width << 16` pack inside Int32 range, matching the declared bit
budget of the key.) -/
theorem optimalKey_screen_relative (p : TexturePool) (w h : Nat) (antialias hdr : Bool)
    (hw : p.screenThreshold < w) (hh : p.screenThreshold < h)
    (hws : w ≤ p.pixelsWidth) (hhs : h ≤ p.pixelsHeight)
    (hbw : p.pixelsWidth < 32768) (hbh : p.pixelsHeight < 32768) :
    optimalKey p w h antialias hdr false < 0 := by
  have hcond : ¬(false = true ∨ w ≤ p.screenThreshold ∨ h ≤ p.screenThreshold
      ∨ p.pixelsWidth < w ∨ p.pixelsHeight < h) := by
    push_neg
    exact ⟨by simp, by omega, by omega, by omega, by omega⟩
  unfold optimalKey
  rw [if_neg hcond]
  have hW1 : w ≤ shrinkFit p.pixelsWidth w p.pixelsWidth := shrinkFit_ge _ _ _ hws
  have hW2 : shrinkFit p.pixelsWidth w p.pixelsWidth ≤ p.pixelsWidth := shrinkFit_le _ _ _
  have hH2 : shrinkFit p.pixelsHeight h p.pixelsHeight ≤ p.pixelsHeight := shrinkFit_le _ _ _
  generalize hWdef : shrinkFit p.pixelsWidth w p.pixelsWidth = W at hW1 hW2 ⊢
  generalize hHdef : shrinkFit p.pixelsHeight h p.pixelsHeight = H at hH2 ⊢
  have e16 : (2 : Nat) ^ 16 = 65536 := by norm_num
  have e2 : (2 : Nat) ^ 2 = 4 := by norm_num
  have eW : toInt32 (W <<< 16) = ((W * 65536 : Nat) : Int) := by
    rw [Nat.shiftLeft_eq, e16]
    exact toInt32_eq_of_lt (by omega)
  have eH : toInt32 (H <<< 2) = ((H * 4 : Nat) : Int) := by
    rw [Nat.shiftLeft_eq, e2]
    exact toInt32_eq_of_lt (by omega)
  unfold texSubKey
  rw [eW, eH]
  cases antialias <;> cases hdr <;> simp <;> push_cast <;> omega

/-- C1 amended witness: a 10000 × 10000 request against a 16384 × 16384
tracked surface yields a negative (screen-relative) bucket key. -/
theorem optimalKey_screen_relative_witness :
    optimalKey bigScreenPool 10000 10000 false false false < 0 :=
  optimalKey_screen_relative bigScreenPool 10000 10000 false false
    (by decide) (by decide) (by decide) (by decide) (by decide) (by decide)

/-- C9: acquire / release / acquire round-trip.  From any pool state,
acquiring a texture, returning it, and acquiring again with the same
sizes, flags and unchanged surface yields the very same texture uid,
and the second acquisition creates no new texture (the uid counter is
untouched). -/
theorem pool_acquire_release_acquire (p : TexturePool) (w h : Nat)
    (antialias hdr ignoreScreen : Bool) :
    (getOptimalTexture
        (returnTexture (getOptimalTexture p w h antialias hdr ignoreScreen).2
          (getOptimalTexture p w h antialias hdr ignoreScreen).1)
        w h antialias hdr ignoreScreen).1
      = (getOptimalTexture p w h antialias hdr ignoreScreen).1
    ∧ (getOptimalTexture
        (returnTexture (getOptimalTexture p w h antialias hdr ignoreScreen).2
          (getOptimalTexture p w h antialias hdr ignoreScreen).1)
        w h antialias hdr ignoreScreen).2.nextUid
      = (returnTexture (getOptimalTexture p w h antialias hdr ignoreScreen).2
          (getOptimalTexture p w h antialias hdr ignoreScreen).1).nextUid := by
  unfold getOptimalTexture returnTexture
  rcases hb : (p.pool (optimalKey p w h antialias hdr ignoreScreen)).getD [] with _ | ⟨t, rest⟩
  · simp only [hb]
    simp [optimalKey]
  · simp only [hb]
    simp [optimalKey]

/-- C10: with the depth/stencil-attachment bit clear, the global state
key is independent of the stencil mode — `getGlobalStateKey` forces the
stencil sub-key to 0, so two states differing only in stencil mode land
in the same pipeline-cache partition. -/
theorem globalKey_ignores_stencil_without_attachment
    (s1 s2 multiSampleCount colorMask renderTarget hdr : Nat)
    (hrt : renderTarget &&& 1 = 0) :
    getGlobalStateKey s1 multiSampleCount colorMask renderTarget hdr
      = getGlobalStateKey s2 multiSampleCount colorMask renderTarget hdr := by
  simp only [getGlobalStateKey, if_pos hrt]

/-- C10 witness: render-target code 2 (stencil-load bit set but no
attachment bit) keys stencil modes 1 and 5 identically. -/
theorem globalKey_ignores_stencil_witness :
    (2 : Nat) &&& 1 = 0
    ∧ getGlobalStateKey 1 1 15 2 0 = getGlobalStateKey 5 1 15 2 0 :=
  ⟨by decide, globalKey_ignores_stencil_without_attachment 1 5 1 15 2 0 (by decide)⟩

/-- C7: on a buffer of capacity 64, `ensureSize 5` is a no-op,
`ensureSize 130` grows by the doubling sequence 64 → 128 → 256 to
capacity 256 ≥ 130, every entry of all four arrays below the old size
is preserved exactly, and — when the buffer carries construction-time
params — every newly grown `counts` slot holds the default
vertex-per-instance count (as stored by the `Int32Array`). -/
theorem multiDrawBuffer_growth (b : MultiDrawBuffer) (hsize : b.size = 64) :
    b.ensureSize 5 = b
    ∧ growSize 130 64 130 = 256
    ∧ ((b.ensureSize 5).ensureSize 130).size = 256
    ∧ (∀ i, i < 64 →
        ((b.ensureSize 5).ensureSize 130).offsets i = b.offsets i
        ∧ ((b.ensureSize 5).ensureSize 130).counts i = b.counts i
        ∧ ((b.ensureSize 5).ensureSize 130).baseInstances i = b.baseInstances i
        ∧ ((b.ensureSize 5).ensureSize 130).instanceCounts i = b.instanceCounts i)
    ∧ (∀ pr, b.params = some pr → ∀ i, 64 ≤ i → i < 256 →
        ((b.ensureSize 5).ensureSize 130).counts i = intToInt32 pr.vertexPerInstance) := by
  have h5 : b.ensureSize 5 = b := by
    unfold MultiDrawBuffer.ensureSize
    rw [if_pos (by omega)]
  have hg : growSize 130 64 130 = 256 := by decide
  have h130 : (b.ensureSize 5).ensureSize 130 = b.resize 256 true := by
    rw [h5]
    unfold MultiDrawBuffer.ensureSize
    rw [if_neg (by omega), hsize, hg]
  refine ⟨h5, hg, ?_, ?_, ?_⟩
  · rw [h130]
    unfold MultiDrawBuffer.resize
    rfl
  · intro i hi
    rw [h130]
    unfold MultiDrawBuffer.resize
    rcases hp : b.params with _ | pr
    · simp only [hp]
      refine ⟨?_, ?_, ?_, ?_⟩ <;> rw [if_pos ⟨by omega, by trivial, by omega⟩]
    · simp only [hp]
      refine ⟨?_, ?_, ?_, ?_⟩
      · rw [if_pos ⟨by omega, by trivial, by omega⟩]
      · rw [if_neg (by omega), if_pos ⟨by omega, by trivial, by omega⟩]
      · rw [if_pos ⟨by omega, by trivial, by omega⟩]
      · rw [if_pos ⟨by omega, by trivial, by omega⟩]
  · intro pr hp i hi1 hi2
    rw [h130]
    unfold MultiDrawBuffer.resize
    simp only [hp]
    rw [if_pos ⟨by omega, by omega⟩]

/-- A concrete capacity-64 buffer with fixed per-instance counts, as a
constructor call (`new MultiDrawBuffer(64, params)`) produces. -/
def mdb64 : MultiDrawBuffer :=
  (MultiDrawBuffer.mk (fun _ => 0) (fun _ => 0) (fun _ => 0) (fun _ => 0) 0 0
    (some ⟨6, 0, false⟩)).resize 64 true

/-- C7 witness: the growth theorem applied to the concrete buffer. -/
theorem multiDrawBuffer_growth_witness :
    mdb64.size = 64
    ∧ ((mdb64.ensureSize 5).ensureSize 130).size = 256
    ∧ ((mdb64.ensureSize 5).ensureSize 130).counts 200 = intToInt32 6 :=
  ⟨rfl, (multiDrawBuffer_growth mdb64 rfl).2.2.1,
    (multiDrawBuffer_growth mdb64 rfl).2.2.2.2 ⟨6, 0, false⟩ rfl 200
      (by decide) (by decide)⟩

/-- C8: `convertInstancesToVertices` is idempotent — a second
application with the same resolved parameter set leaves the whole
buffer state (all four range arrays included) exactly as after the
first — and with hardware-instanced parameters it changes nothing at
all. -/
theorem convertInstancesToVertices_idempotent (b : MultiDrawBuffer)
    (params : DrawInstanceParameters) :
    (b.convertInstancesToVertices params).convertInstancesToVertices params
      = b.convertInstancesToVertices params
    ∧ (params.instanced = true → b.convertInstancesToVertices params = b) := by
  constructor
  · unfold MultiDrawBuffer.convertInstancesToVertices
    obtain ⟨off, cnt, bi, ic, sz, cn, pr⟩ := b
    rcases hinst : params.instanced with _ | _
    · by_cases hip : 0 < params.indexPerInstance
      all_goals
        simp only [hinst, Bool.false_eq_true, if_false, hip, if_true,
          MultiDrawBuffer.mk.injEq, and_true, true_and]
      all_goals
        constructor <;>
          · funext j
            by_cases hj : j < cn ∧ j < sz <;> simp [hj]
    · simp [hinst]
  · intro hinst
    unfold MultiDrawBuffer.convertInstancesToVertices
    rw [if_pos hinst]

/-- C3: repeated `getPipeline` with an identical tuple is stable — the
second call returns the same pipeline id and leaves the whole cache
state untouched, and the first call invokes the backend constructor at
most once (the creation counter grows by at most one). -/
theorem getPipeline_repeat_stable (s : PipeState) (g sh t c st bl : Nat) :
    ((s.getPipeline g sh t c st bl).state.getPipeline g sh t c st bl).pipe
      = (s.getPipeline g sh t c st bl).pipe
    ∧ ((s.getPipeline g sh t c st bl).state.getPipeline g sh t c st bl).state
      = (s.getPipeline g sh t c st bl).state
    ∧ (s.getPipeline g sh t c st bl).state.nextId ≤ s.nextId + 1 := by
  unfold PipeState.getPipeline PipeState.drawKey
  by_cases h1 : s.prevProgKey = some (getProgKey g sh t)
  · rcases hl : s.caches s.cacheAddr.1 s.cacheAddr.2
        (getGraphicsStateKey c
          (if s.depthStencilAttachment &&& 1 ≠ 0 then s.depthCompareKey else 0)
          st bl) with _ | p <;>
      simp only [h1, eq_self_iff_true, ite_true, and_self, true_and, and_true, hl] <;>
      omega
  · rcases hl : s.caches s.prevPipeKey (getProgKey g sh t)
        (getGraphicsStateKey c
          (if s.depthStencilAttachment &&& 1 ≠ 0 then s.depthCompareKey else 0)
          st bl) with _ | p <;>
      simp only [h1, eq_self_iff_true, ite_true, and_self, true_and, and_true,
        ite_false, if_neg h1, hl] <;>
      omega

/-- The operation `getPipeline` only ever adds cache entries: an entry present before
a call is present, unchanged, after it. -/
theorem getPipeline_caches_mono (s : PipeState) (g sh t c st bl : Nat)
    (gk : Int) (pk dk v : Nat) (h : s.caches gk pk dk = some v) :
    (s.getPipeline g sh t c st bl).state.caches gk pk dk = some v := by
  unfold PipeState.getPipeline PipeState.drawKey
  by_cases h1 : s.prevProgKey = some (getProgKey g sh t)
  · simp only [h1, eq_self_iff_true, ite_true]
    generalize (if s.depthStencilAttachment &&& 1 ≠ 0 then s.depthCompareKey else 0) = D
    rcases hl : s.caches s.cacheAddr.1 s.cacheAddr.2 (getGraphicsStateKey c D st bl)
        with _ | p <;>
      simp only [hl]
    · split
      next hcond =>
        obtain ⟨e1, e2, e3⟩ := hcond
        subst e1; subst e2; subst e3
        rw [h] at hl
        cases hl
      next => exact h
    · exact h
  · simp only [h1, ite_false, if_neg h1]
    generalize (if s.depthStencilAttachment &&& 1 ≠ 0 then s.depthCompareKey else 0) = D
    rcases hl : s.caches s.prevPipeKey (getProgKey g sh t) (getGraphicsStateKey c D st bl)
        with _ | p <;>
      simp only [hl]
    · split
      next hcond =>
        obtain ⟨e1, e2, e3⟩ := hcond
        subst e1; subst e2; subst e3
        rw [h] at hl
        cases hl
      next => exact h
    · exact h

/-- Every pipeline-system operation only ever adds cache entries. -/
theorem applyOp_caches_mono (s : PipeState) (op : PipeOp)
    (gk : Int) (pk dk v : Nat) (h : s.caches gk pk dk = some v) :
    (s.applyOp op).caches gk pk dk = some v := by
  cases op with
  | getPipe g sh t c st bl => exact getPipeline_caches_mono s g sh t c st bl gk pk dk v h
  | setStencilMode m =>
    simp only [PipeState.applyOp, PipeState.setStencilMode, updatePipeHash]
    split
    · exact h
    · split
      · exact h
      · exact h
  | setColorMask m =>
    simp only [PipeState.applyOp, PipeState.setColorMask, updatePipeHash]
    split
    · exact h
    · split
      · exact h
      · exact h
  | setMultisampleCount m =>
    simp only [PipeState.applyOp, PipeState.setMultisampleCount, updatePipeHash]
    split
    · exact h
    · split
      · exact h
      · exact h
  | setDepthCompareKey k =>
    exact h
  | setRenderTarget msaa att hdr =>
    simp only [PipeState.applyOp, PipeState.setRenderTarget, updatePipeHash]
    split
    · exact h
    · exact h

/-- A whole operation sequence only ever adds cache entries. -/
theorem run_caches_mono (s : PipeState) (ops : List PipeOp)
    (gk : Int) (pk dk v : Nat) (h : s.caches gk pk dk = some v) :
    (s.run ops).caches gk pk dk = some v := by
  induction ops generalizing s with
  | nil => exact h
  | cons op ops ih => exact ih _ (applyOp_caches_mono s op gk pk dk v h)

/-- The operation `_updatePipeHash` leaves the state consistent whenever the
fast-path/alias condition held before the call. -/
theorem updatePipeHash_consistent (q : PipeState)
    (hA : ∀ p, q.prevProgKey = some p → q.cacheAddr = (q.prevPipeKey, p)) :
    (updatePipeHash q).Consistent := by
  simp only [updatePipeHash, PipeState.Consistent]
  split
  next hcond => exact ⟨hcond, hA⟩
  next hcond =>
    refine ⟨rfl, ?_⟩
    intro p hp
    exact absurd hp (by simp)

/-- The operation `getPipeline` preserves state consistency. -/
theorem getPipeline_consistent (s : PipeState) (g sh t c st bl : Nat)
    (h : s.Consistent) : (s.getPipeline g sh t c st bl).state.Consistent := by
  obtain ⟨hK, hA⟩ := h
  unfold PipeState.getPipeline PipeState.drawKey
  by_cases h1 : s.prevProgKey = some (getProgKey g sh t)
  · simp only [h1, eq_self_iff_true, ite_true]
    generalize (if s.depthStencilAttachment &&& 1 ≠ 0 then s.depthCompareKey else 0) = D
    rcases hl : s.caches s.cacheAddr.1 s.cacheAddr.2 (getGraphicsStateKey c D st bl)
        with _ | p <;>
      simp only [hl]
    · refine ⟨hK, ?_⟩
      intro p' hp'
      have e := Option.some.inj hp'
      subst e
      exact hA _ h1
    · exact ⟨hK, hA⟩
  · simp only [h1, ite_false, if_neg h1]
    generalize (if s.depthStencilAttachment &&& 1 ≠ 0 then s.depthCompareKey else 0) = D
    rcases hl : s.caches s.prevPipeKey (getProgKey g sh t) (getGraphicsStateKey c D st bl)
        with _ | p <;>
      simp only [hl] <;>
    · refine ⟨hK, ?_⟩
      intro p' hp'
      have e := Option.some.inj hp'
      subst e
      rfl

/-- Every pipeline-system operation preserves state consistency. -/
theorem applyOp_consistent (s : PipeState) (op : PipeOp) (h : s.Consistent) :
    (s.applyOp op).Consistent := by
  obtain ⟨hK, hA⟩ := h
  cases op with
  | getPipe g sh t c st bl => exact getPipeline_consistent s g sh t c st bl ⟨hK, hA⟩
  | setStencilMode m =>
    simp only [PipeState.applyOp, PipeState.setStencilMode]
    split
    · exact ⟨hK, hA⟩
    · exact updatePipeHash_consistent _ hA
  | setColorMask m =>
    simp only [PipeState.applyOp, PipeState.setColorMask]
    split
    · exact ⟨hK, hA⟩
    · exact updatePipeHash_consistent _ hA
  | setMultisampleCount m =>
    simp only [PipeState.applyOp, PipeState.setMultisampleCount]
    split
    · exact ⟨hK, hA⟩
    · exact updatePipeHash_consistent _ hA
  | setDepthCompareKey k => exact ⟨hK, hA⟩
  | setRenderTarget msaa att hdr =>
    exact updatePipeHash_consistent _ hA

/-- A whole operation sequence preserves state consistency. -/
theorem run_consistent (s : PipeState) (ops : List PipeOp) (h : s.Consistent) :
    (s.run ops).Consistent := by
  induction ops generalizing s with
  | nil => exact h
  | cons op ops ih => exact ih _ (applyOp_consistent s op h)

/-- The global key is a function of the global fields. -/
theorem globalKey_eq_of_fields {s1 s2 : PipeState} (h : s1.fields = s2.fields) :
    s1.globalKey = s2.globalKey := by
  simp only [PipeState.fields, Prod.mk.injEq] at h
  obtain ⟨h1, h2, h3, h4, h5, h6⟩ := h
  unfold PipeState.globalKey
  rw [h1, h2, h3, h4, h5]

/-- C2: global-state partition isolation.  From any consistent pipeline
state ("state A") that already holds a built pipeline for a tuple in
its current partition, running an arbitrary sequence of global-state
changes and pipeline requests (A → B → … ) that ends with the global
fields restored to A's values, a `getPipeline` call for that tuple
returns the previously built pipeline object and does not invoke the
backend constructor again (the creation counter is unchanged): the
partitions survive the transitions.  Moreover the previous-program-key
fast path is invalidated on every partition switch (`_updatePipeHash`
clears it whenever the partition changes). -/
theorem pipeline_partition_isolation (s0 : PipeState) (ops : List PipeOp)
    (g sh t c st bl pipe : Nat)
    (hcons : s0.Consistent)
    (hbuilt : s0.caches s0.prevPipeKey (getProgKey g sh t)
        (s0.drawKey c st bl) = some pipe)
    (hback : (s0.run ops).fields = s0.fields) :
    (((s0.run ops).getPipeline g sh t c st bl).pipe = pipe
      ∧ ((s0.run ops).getPipeline g sh t c st bl).state.nextId = (s0.run ops).nextId)
    ∧ ∀ q : PipeState, (updatePipeHash q).prevPipeKey ≠ q.prevPipeKey →
        (updatePipeHash q).prevProgKey = none := by
  constructor
  · obtain ⟨hK', hA'⟩ := run_consistent s0 ops hcons
    obtain ⟨hK, hA⟩ := hcons
    have hmono := run_caches_mono s0 ops _ _ _ _ hbuilt
    have hfields := hback
    simp only [PipeState.fields, Prod.mk.injEq] at hfields
    obtain ⟨f1, f2, f3, f4, f5, f6⟩ := hfields
    have hglob : (s0.run ops).globalKey = s0.globalKey := globalKey_eq_of_fields hback
    have hpk : (s0.run ops).prevPipeKey = s0.prevPipeKey := by
      rw [hK', hglob, hK]
    unfold PipeState.drawKey at hmono
    unfold PipeState.getPipeline PipeState.drawKey
    by_cases h1 : (s0.run ops).prevProgKey = some (getProgKey g sh t)
    · have haddr := hA' _ h1
      simp only [h1, eq_self_iff_true, ite_true]
      have hhit : (s0.run ops).caches (s0.run ops).cacheAddr.1 (s0.run ops).cacheAddr.2
          (getGraphicsStateKey c
            (if (s0.run ops).depthStencilAttachment &&& 1 ≠ 0
              then (s0.run ops).depthCompareKey else 0) st bl) = some pipe := by
        rw [haddr]
        rw [f4, f6, hpk]
        exact hmono
      simp only [hhit]
      exact ⟨trivial, trivial⟩
    · simp only [h1, ite_false, if_neg h1]
      have hhit : (s0.run ops).caches (s0.run ops).prevPipeKey (getProgKey g sh t)
          (getGraphicsStateKey c
            (if (s0.run ops).depthStencilAttachment &&& 1 ≠ 0
              then (s0.run ops).depthCompareKey else 0) st bl) = some pipe := by
        rw [f4, f6, hpk]
        exact hmono
      simp only [hhit]
      exact ⟨trivial, trivial⟩
  · intro q hq
    simp only [updatePipeHash] at hq ⊢
    by_cases hc : q.prevPipeKey = ((q.globalKey : Nat) : Int)
    · rw [if_pos hc] at hq
      exact absurd rfl hq
    · rw [if_neg hc]

/-- A concrete consistent pipeline state holding one built pipeline
(id 7) for the tuple (1, 1, 3, 0, 0, 0) in the partition of its current
global state (stencil disabled, 1 sample, full color mask, no
depth/stencil attachment, SDR). -/
def pipeDemo : PipeState :=
  { caches := fun gk pk dk =>
      if gk = (3841 : Int) ∧ pk = getProgKey 1 1 3 ∧ dk = getGraphicsStateKey 0 0 0 0
      then some 7 else none,
    cacheAddr := (3841, 0),
    prevProgKey := none,
    prevPipeKey := 3841,
    stencilMode := 0,
    multisampleCount := 1,
    colorMask := 15,
    depthStencilAttachment := 0,
    hdr := 0,
    depthCompareKey := 0,
    nextId := 8 }

/-- C2 witness: after a color-mask change to 7 and back to 15 (an
A → B → A transition), the demo tuple's pipeline is found again and no
new pipeline is created. -/
theorem pipeline_partition_isolation_witness :
    ((pipeDemo.run [PipeOp.setColorMask 7, PipeOp.setColorMask 15]).getPipeline
        1 1 3 0 0 0).pipe = 7
    ∧ ((pipeDemo.run [PipeOp.setColorMask 7, PipeOp.setColorMask 15]).getPipeline
        1 1 3 0 0 0).state.nextId
      = (pipeDemo.run [PipeOp.setColorMask 7, PipeOp.setColorMask 15]).nextId :=
  (pipeline_partition_isolation pipeDemo [PipeOp.setColorMask 7, PipeOp.setColorMask 15]
    1 1 3 0 0 0 7
    ⟨by decide, fun p hp => by simp [pipeDemo] at hp⟩
    (by decide) (by decide)).1

/-! ## Encoder redundancy lemmas -/

/-- Everything the second of two identical draws relies on being
already bound: the pipeline object, every vertex buffer at its slot,
the index buffer (when present), and every bind group at its index
with its `_lastLayout` equal to the program's layout key. -/
def EncoderState.Covered (es : EncoderState) (c : DrawCmd) : Prop :=
  es.boundPipeline = some c.pipeline
  ∧ (∀ k b, c.vertexBuffers[k]? = some b → es.boundVertexBuffer k = some b)
  ∧ (∀ b, c.indexBuffer = some b → es.boundIndexBuffer = some b)
  ∧ ∀ ig ∈ c.groups,
      es.boundBindGroup ig.1 = some ig.2 ∧ es.lastLayout ig.2 = c.programLayout

/-- Effect of one `setPipeline`: the pipeline is bound afterwards and
nothing else changes. -/
theorem setPipeline_effects (es : EncoderState) (p : Nat) :
    (es.setPipeline p).1.boundPipeline = some p
    ∧ (es.setPipeline p).1.boundVertexBuffer = es.boundVertexBuffer
    ∧ (es.setPipeline p).1.boundIndexBuffer = es.boundIndexBuffer
    ∧ (es.setPipeline p).1.boundBindGroup = es.boundBindGroup
    ∧ (es.setPipeline p).1.lastLayout = es.lastLayout := by
  unfold EncoderState.setPipeline
  split
  next hc => exact ⟨hc, rfl, rfl, rfl, rfl⟩
  next => exact ⟨rfl, rfl, rfl, rfl, rfl⟩

/-- Effect of one `_setVertexBuffer`: the buffer is bound at its slot,
other slots and all other tables are untouched. -/
theorem setVertexBuffer_effects (es : EncoderState) (slot buffer : Nat) :
    (es.setVertexBuffer slot buffer).1.boundPipeline = es.boundPipeline
    ∧ (es.setVertexBuffer slot buffer).1.boundIndexBuffer = es.boundIndexBuffer
    ∧ (es.setVertexBuffer slot buffer).1.boundBindGroup = es.boundBindGroup
    ∧ (es.setVertexBuffer slot buffer).1.lastLayout = es.lastLayout
    ∧ (es.setVertexBuffer slot buffer).1.boundVertexBuffer slot = some buffer
    ∧ ∀ j, j ≠ slot →
        (es.setVertexBuffer slot buffer).1.boundVertexBuffer j = es.boundVertexBuffer j := by
  unfold EncoderState.setVertexBuffer
  split
  next hc => exact ⟨rfl, rfl, rfl, rfl, hc, fun j _ => rfl⟩
  next =>
    refine ⟨rfl, rfl, rfl, rfl, ?_, ?_⟩
    · simp
    · intro j hj
      simp [hj]

/-- Effect of one `_setIndexBuffer`: the index buffer is bound and
nothing else changes. -/
theorem setIndexBuffer_effects (es : EncoderState) (buffer : Nat) :
    (es.setIndexBuffer buffer).1.boundPipeline = es.boundPipeline
    ∧ (es.setIndexBuffer buffer).1.boundVertexBuffer = es.boundVertexBuffer
    ∧ (es.setIndexBuffer buffer).1.boundBindGroup = es.boundBindGroup
    ∧ (es.setIndexBuffer buffer).1.lastLayout = es.lastLayout
    ∧ (es.setIndexBuffer buffer).1.boundIndexBuffer = some buffer := by
  unfold EncoderState.setIndexBuffer
  split
  next hc => exact ⟨rfl, rfl, rfl, rfl, hc⟩
  next => exact ⟨rfl, rfl, rfl, rfl, rfl⟩

/-- Effect of one `setBindGroup`: the group is bound at the index with
its `_lastLayout` set to the program's layout; other indices and other
groups' layouts are untouched, and a `_lastLayout` already equal to
this layout stays equal. -/
theorem setBindGroup_effects (es : EncoderState) (i g : Nat) (layout : Int) :
    (es.setBindGroup i g layout).1.boundPipeline = es.boundPipeline
    ∧ (es.setBindGroup i g layout).1.boundVertexBuffer = es.boundVertexBuffer
    ∧ (es.setBindGroup i g layout).1.boundIndexBuffer = es.boundIndexBuffer
    ∧ (es.setBindGroup i g layout).1.boundBindGroup i = some g
    ∧ (es.setBindGroup i g layout).1.lastLayout g = layout
    ∧ (∀ j, j ≠ i →
        (es.setBindGroup i g layout).1.boundBindGroup j = es.boundBindGroup j)
    ∧ (∀ g2, es.lastLayout g2 = layout →
        (es.setBindGroup i g layout).1.lastLayout g2 = layout) := by
  unfold EncoderState.setBindGroup
  split
  next hc => exact ⟨rfl, rfl, rfl, hc.1, hc.2, fun j _ => rfl, fun g2 h2 => h2⟩
  next =>
    refine ⟨rfl, rfl, rfl, by simp, by simp, ?_, ?_⟩
    · intro j hj
      simp [hj]
    · intro g2 h2
      by_cases hg : g2 = g <;> simp [hg, h2]

/-- Effects of the vertex-buffer binding loop: all other tables are
untouched, slots below the starting slot are untouched, and afterwards
every listed buffer is bound at its slot. -/
theorem bindVertexBuffers_effects (es : EncoderState) (bufs : List Nat) (slot : Nat) :
    (es.bindVertexBuffers bufs slot).1.boundPipeline = es.boundPipeline
    ∧ (es.bindVertexBuffers bufs slot).1.boundIndexBuffer = es.boundIndexBuffer
    ∧ (es.bindVertexBuffers bufs slot).1.boundBindGroup = es.boundBindGroup
    ∧ (es.bindVertexBuffers bufs slot).1.lastLayout = es.lastLayout
    ∧ (∀ j, j < slot →
        (es.bindVertexBuffers bufs slot).1.boundVertexBuffer j = es.boundVertexBuffer j)
    ∧ (∀ k b, bufs[k]? = some b →
        (es.bindVertexBuffers bufs slot).1.boundVertexBuffer (slot + k) = some b) := by
  induction bufs generalizing es slot with
  | nil =>
    refine ⟨rfl, rfl, rfl, rfl, fun j _ => rfl, ?_⟩
    intro k b hb
    simp at hb
  | cons b rest ih =>
    obtain ⟨s1, s2, s3, s4, s5, s6⟩ := setVertexBuffer_effects es slot b
    obtain ⟨i1, i2, i3, i4, i5, i6⟩ := ih (es.setVertexBuffer slot b).1 (slot + 1)
    have hres : es.bindVertexBuffers (b :: rest) slot
        = (((es.setVertexBuffer slot b).1.bindVertexBuffers rest (slot + 1)).1,
            (es.setVertexBuffer slot b).2
              ++ ((es.setVertexBuffer slot b).1.bindVertexBuffers rest (slot + 1)).2) := rfl
    rw [hres]
    refine ⟨by rw [i1, s1], by rw [i2, s2], by rw [i3, s3], by rw [i4, s4], ?_, ?_⟩
    · intro j hj
      rw [i5 j (by omega), s6 j (by omega)]
    · intro k bk hbk
      cases k with
      | zero =>
        simp only [List.getElem?_cons_zero, Option.some.injEq] at hbk
        subst hbk
        exact (i5 slot (by omega)).trans s5
      | succ k =>
        simp only [List.getElem?_cons_succ] at hbk
        have hcur := i6 k bk hbk
        show ((es.setVertexBuffer slot b).1.bindVertexBuffers rest
            (slot + 1)).1.boundVertexBuffer (slot + (k + 1)) = some bk
        have e : slot + (k + 1) = slot + 1 + k := by omega
        rw [e]
        exact hcur

/-- Effects of `setGeometry`: pipeline and bind-group state untouched,
every vertex buffer bound at its slot, the index buffer bound when the
geometry has one. -/
theorem setGeometry_effects (es : EncoderState) (bufs : List Nat) (ib : Option Nat) :
    (es.setGeometry bufs ib).1.boundPipeline = es.boundPipeline
    ∧ (es.setGeometry bufs ib).1.boundBindGroup = es.boundBindGroup
    ∧ (es.setGeometry bufs ib).1.lastLayout = es.lastLayout
    ∧ (∀ k b, bufs[k]? = some b → (es.setGeometry bufs ib).1.boundVertexBuffer k = some b)
    ∧ (∀ b, ib = some b → (es.setGeometry bufs ib).1.boundIndexBuffer = some b) := by
  obtain ⟨v1, v2, v3, v4, v5, v6⟩ := bindVertexBuffers_effects es bufs 0
  cases ib with
  | none =>
    refine ⟨v1, v3, v4, ?_, ?_⟩
    · intro k b hb
      have := v6 k b hb
      rw [Nat.zero_add] at this
      exact this
    · intro b hb
      cases hb
  | some b0 =>
    obtain ⟨j1, j2, j3, j4, j5⟩ :=
      setIndexBuffer_effects (es.bindVertexBuffers bufs 0).1 b0
    have hres : es.setGeometry bufs (some b0)
        = (((es.bindVertexBuffers bufs 0).1.setIndexBuffer b0).1,
            (es.bindVertexBuffers bufs 0).2
              ++ ((es.bindVertexBuffers bufs 0).1.setIndexBuffer b0).2) := rfl
    rw [hres]
    refine ⟨by rw [j1, v1], by rw [j3, v3], by rw [j4, v4], ?_, ?_⟩
    · intro k b hb
      have := v6 k b hb
      rw [Nat.zero_add] at this
      rw [j2]
      exact this
    · intro b hb
      cases hb
      exact j5

/-- Effects of `_setShaderBindGroups`: pipeline, vertex- and
index-buffer state untouched; a group `_lastLayout` already at this
program layout stays there; untouched indices keep their binding; and
with distinct group indices every listed group ends bound at its index
with its `_lastLayout` at the program layout. -/
theorem setShaderBindGroups_effects (es : EncoderState)
    (groups : List (Nat × Nat)) (layout : Int) :
    (es.setShaderBindGroups groups layout).1.boundPipeline = es.boundPipeline
    ∧ (es.setShaderBindGroups groups layout).1.boundVertexBuffer = es.boundVertexBuffer
    ∧ (es.setShaderBindGroups groups layout).1.boundIndexBuffer = es.boundIndexBuffer
    ∧ (∀ g2, es.lastLayout g2 = layout →
        (es.setShaderBindGroups groups layout).1.lastLayout g2 = layout)
    ∧ (∀ j, j ∉ groups.map Prod.fst →
        (es.setShaderBindGroups groups layout).1.boundBindGroup j = es.boundBindGroup j)
    ∧ ((groups.map Prod.fst).Nodup → ∀ ig ∈ groups,
        (es.setShaderBindGroups groups layout).1.boundBindGroup ig.1 = some ig.2
        ∧ (es.setShaderBindGroups groups layout).1.lastLayout ig.2 = layout) := by
  induction groups generalizing es with
  | nil =>
    refine ⟨rfl, rfl, rfl, fun g2 h2 => h2, fun j _ => rfl, ?_⟩
    intro _ ig hig
    cases hig
  | cons ig rest ih =>
    obtain ⟨i, g⟩ := ig
    obtain ⟨b1, b2, b3, b4, b5, b6, b7⟩ := setBindGroup_effects es i g layout
    obtain ⟨r1, r2, r3, r4, r5, r6⟩ := ih (es.setBindGroup i g layout).1
    have hres : es.setShaderBindGroups ((i, g) :: rest) layout
        = (((es.setBindGroup i g layout).1.setShaderBindGroups rest layout).1,
            (es.setBindGroup i g layout).2
              ++ ((es.setBindGroup i g layout).1.setShaderBindGroups rest layout).2) := rfl
    rw [hres]
    refine ⟨by rw [r1, b1], by rw [r2, b2], by rw [r3, b3], ?_, ?_, ?_⟩
    · intro g2 h2
      exact r4 g2 (b7 g2 h2)
    · intro j hj
      simp only [List.map_cons, List.mem_cons] at hj
      push_neg at hj
      rw [r5 j hj.2, b6 j hj.1]
    · intro hnodup ig2 hig2
      simp only [List.map_cons, List.nodup_cons] at hnodup
      rcases List.mem_cons.mp hig2 with hig2 | hig2
      · subst hig2
        constructor
        · have hni : i ∉ rest.map Prod.fst := hnodup.1
          rw [r5 i hni]
          exact b4
        · exact r4 g (b5)
      · exact r6 hnodup.2 ig2 hig2

/-- After any draw with distinct group indices, everything the draw
bound is recorded in the bound-state tables. -/
theorem draw_covers (es : EncoderState) (c : DrawCmd)
    (hnodup : (c.groups.map Prod.fst).Nodup) : (es.draw c).1.Covered c := by
  obtain ⟨p1, p2, p3, p4, p5⟩ := setPipeline_effects es c.pipeline
  obtain ⟨g1, g2, g3, g4, g5⟩ :=
    setGeometry_effects (es.setPipeline c.pipeline).1 c.vertexBuffers c.indexBuffer
  obtain ⟨s1, s2, s3, s4, s5, s6⟩ :=
    setShaderBindGroups_effects
      ((es.setPipeline c.pipeline).1.setGeometry c.vertexBuffers c.indexBuffer).1
      c.groups c.programLayout
  have hres : (es.draw c).1
      = (((es.setPipeline c.pipeline).1.setGeometry c.vertexBuffers
            c.indexBuffer).1.setShaderBindGroups c.groups c.programLayout).1 := rfl
  rw [EncoderState.Covered, hres]
  refine ⟨by rw [s1, g1, p1], ?_, ?_, ?_⟩
  · intro k b hb
    rw [s2]
    exact g4 k b hb
  · intro b hb
    rw [s3]
    exact g5 b hb
  · exact s6 hnodup

/-- On a state that already has everything bound, a draw emits only the
draw call and leaves the state unchanged. -/
theorem draw_covered (es : EncoderState) (c : DrawCmd) (h : es.Covered c) :
    es.draw c = (es, [c.drawCall]) := by
  obtain ⟨hp, hv, hi, hg⟩ := h
  have e1 : es.setPipeline c.pipeline = (es, []) := by
    unfold EncoderState.setPipeline
    rw [if_pos hp]
  have e2 : es.bindVertexBuffers c.vertexBuffers 0 = (es, []) := by
    have hv0 : ∀ (bufs : List Nat) (slot : Nat),
        (∀ k b, bufs[k]? = some b → es.boundVertexBuffer (slot + k) = some b) →
        es.bindVertexBuffers bufs slot = (es, []) := by
      intro bufs
      induction bufs with
      | nil => intro slot _; rfl
      | cons b rest ih =>
        intro slot hcov
        have h0 : es.boundVertexBuffer slot = some b := by
          have := hcov 0 b (by simp)
          rwa [Nat.add_zero] at this
        have hrest : ∀ k b2, rest[k]? = some b2 →
            es.boundVertexBuffer (slot + 1 + k) = some b2 := by
          intro k b2 hk
          have := hcov (k + 1) b2 (by simpa using hk)
          have e : slot + (k + 1) = slot + 1 + k := by omega
          rwa [e] at this
        have hskip : es.setVertexBuffer slot b = (es, []) := by
          unfold EncoderState.setVertexBuffer
          rw [if_pos h0]
        show (((es.setVertexBuffer slot b).1.bindVertexBuffers rest (slot + 1)).1,
            (es.setVertexBuffer slot b).2
              ++ ((es.setVertexBuffer slot b).1.bindVertexBuffers rest (slot + 1)).2)
          = (es, [])
        rw [hskip]
        rw [ih (slot + 1) hrest]
        rfl
    apply hv0
    intro k b hb
    rw [Nat.zero_add]
    exact hv k b hb
  have e3 : es.setGeometry c.vertexBuffers c.indexBuffer = (es, []) := by
    unfold EncoderState.setGeometry
    rw [e2]
    cases hib : c.indexBuffer with
    | none => rfl
    | some b0 =>
      have hsk : es.setIndexBuffer b0 = (es, []) := by
        unfold EncoderState.setIndexBuffer
        rw [if_pos (hi b0 hib)]
      simp [hsk]
  have e4 : es.setShaderBindGroups c.groups c.programLayout = (es, []) := by
    have h4 : ∀ (groups : List (Nat × Nat)),
        (∀ ig ∈ groups, es.boundBindGroup ig.1 = some ig.2
          ∧ es.lastLayout ig.2 = c.programLayout) →
        es.setShaderBindGroups groups c.programLayout = (es, []) := by
      intro groups
      induction groups with
      | nil => intro _; rfl
      | cons ig rest ih =>
        intro hcov
        obtain ⟨i, g⟩ := ig
        have hskip : es.setBindGroup i g c.programLayout = (es, []) := by
          unfold EncoderState.setBindGroup
          rw [if_pos (hcov (i, g) (by simp))]
        show (((es.setBindGroup i g c.programLayout).1.setShaderBindGroups rest
              c.programLayout).1,
            (es.setBindGroup i g c.programLayout).2
              ++ ((es.setBindGroup i g c.programLayout).1.setShaderBindGroups rest
                  c.programLayout).2)
          = (es, [])
        rw [hskip]
        rw [ih (fun ig2 hig2 => hcov ig2 (List.mem_cons_of_mem _ hig2))]
        rfl
    exact h4 c.groups hg
  simp only [EncoderState.draw, e1, e3, e4, List.nil_append]

/-- C4: redundant-bind elision.  Two consecutive identical draw
submissions (same resolved pipeline object, same vertex buffers, same
index buffer, same bind groups under the same program layout; group
indices distinct, as JavaScript object keys are) — the second emits no
setPipeline / setVertexBuffer / setIndexBuffer / setBindGroup call:
its trace is exactly the draw (or indexed draw) call. -/
theorem encoder_redundant_bind_elision (es : EncoderState) (c : DrawCmd)
    (hnodup : (c.groups.map Prod.fst).Nodup) :
    ((es.draw c).1.draw c).2 = [c.drawCall] := by
  rw [draw_covered _ _ (draw_covers es c hnodup)]

/-- The encoder state right after `_clearCache` (pass begin): nothing
bound, every group's `_lastLayout` at -1. -/
def encoderCleared : EncoderState :=
  ⟨none, fun _ => none, none, fun _ => none, fun _ => -1⟩

/-- C4 witness: a concrete indexed two-group draw repeated from the
cleared state re-emits only `drawIndexed`. -/
theorem encoder_redundant_bind_elision_witness :
    (([(0, 5), (1, 6)].map Prod.fst).Nodup : Prop)
    ∧ ((encoderCleared.draw ⟨1, [2, 3], some 4, [(0, 5), (1, 6)], 9, 6, 1, 0, 0⟩).1.draw
          ⟨1, [2, 3], some 4, [(0, 5), (1, 6)], 9, 6, 1, 0, 0⟩).2
      = [GpuCall.drawIndexed 6 1 0 0] :=
  ⟨by decide,
    encoder_redundant_bind_elision encoderCleared
      ⟨1, [2, 3], some 4, [(0, 5), (1, 6)], 9, 6, 1, 0, 0⟩ (by decide)⟩

/-- C5: bind-group program-layout sensitivity.  Rebinding the same
group object at an index where it is already bound, under a program
whose layout key differs from the group's `_lastLayout`, emits a new
setBindGroup device call (and records the new layout). -/
theorem encoder_bindgroup_layout_sensitive (es : EncoderState) (i g : Nat)
    (layout : Int)
    (hbound : es.boundBindGroup i = some g)
    (hlayout : es.lastLayout g ≠ layout) :
    (es.setBindGroup i g layout).2 = [GpuCall.setBindGroup i g]
    ∧ (es.setBindGroup i g layout).1.lastLayout g = layout := by
  unfold EncoderState.setBindGroup
  rw [if_neg (by intro hc; exact hlayout hc.2)]
  exact ⟨rfl, by simp⟩

/-- An encoder state with group 5 bound at index 0, last bound under
program layout 9. -/
def encoderBound : EncoderState :=
  ⟨some 1, fun _ => none, none, fun i => if i = 0 then some 5 else none,
    fun g => if g = 5 then 9 else -1⟩

/-- C5 witness: rebinding group 5 at index 0 under layout 11 (≠ 9)
emits a fresh setBindGroup call. -/
theorem encoder_bindgroup_layout_sensitive_witness :
    encoderBound.boundBindGroup 0 = some 5
    ∧ encoderBound.lastLayout 5 ≠ (11 : Int)
    ∧ (encoderBound.setBindGroup 0 5 11).2 = [GpuCall.setBindGroup 0 5] :=
  ⟨by decide, by decide,
    (encoder_bindgroup_layout_sensitive encoderBound 0 5 11 (by decide) (by decide)).1⟩

/-- C6: `getGpuKey` memoization.  With the revision counter sane (every
memo written at or before the current revision — true from construction
on), (1) when the memo record for a program layout key was computed at
the current revision, `getGpuKey` returns the cached key string with
the state untouched and no recomputation; (2) `setResource` with a
different resource advances the revision so the next `getGpuKey` for
any program layout recomputes; (3) a member resource's change
notification (`onResourceChange`) likewise forces recomputation. -/
theorem bindGroup_gpuKey_memoized (g : BindGroupState) (pk : Nat)
    (layout : List LayoutEntry) (hrev : g.RevBounded) :
    (∀ memo, g.keys pk = some memo → memo.dirtyId = g.updateID →
        g.getGpuKey pk layout = ⟨memo.key, g, false⟩)
    ∧ (∀ r idx, ¬ g.resources idx = some r →
        ((g.setResource r idx).getGpuKey pk layout).recomputed = true)
    ∧ (∀ r d, ((g.onResourceChange r d).getGpuKey pk layout).recomputed = true) := by
  obtain ⟨hlow, hbound⟩ := hrev
  have key1 : ∀ h : BindGroupState, h.keys = g.keys → h.updateID = g.updateID + 1 →
      (h.getGpuKey pk layout).recomputed = true := by
    intro h hkeys hupd
    unfold BindGroupState.getGpuKey
    rcases hk : g.keys pk with _ | memo
    · have h1 : ¬ (-1 : Int) = h.updateID := by
        rw [hupd]
        omega
      simp [hkeys, hk, h1]
    · have h1 : ¬ memo.dirtyId = h.updateID := by
        rw [hupd]
        have := hbound pk memo hk
        omega
      simp [hkeys, hk, h1]
  refine ⟨?_, ?_, ?_⟩
  · intro memo hk hd
    unfold BindGroupState.getGpuKey
    simp only [hk]
    rw [if_pos hd]
  · intro r idx hne
    unfold BindGroupState.setResource
    rw [if_neg hne]
    exact key1 _ rfl rfl
  · intro r d
    unfold BindGroupState.onResourceChange
    cases d
    · exact key1 _ rfl rfl
    · exact key1 _ rfl rfl

/-- A demo bind group: one resource (uid 1, identity token 10) at
slot 0, a memo for program layout key 5 computed at the current
revision 0. -/
def bgDemo : BindGroupState :=
  ⟨fun i => if i = 0 then some ⟨1, 10⟩ else none,
   fun k => if k = 5 then some ⟨0, keyEmpty⟩ else none,
   0, -1⟩

/-- The demo layout: one non-storage binding at index 0. -/
def layoutDemo : List LayoutEntry :=
  [⟨0, false, false⟩]

/-- C6 witness: the memoized key is returned untouched for the demo
group, and replacing slot 0 with a different resource forces the next
`getGpuKey` to recompute. -/
theorem bindGroup_gpuKey_memoized_witness :
    bgDemo.getGpuKey 5 layoutDemo = ⟨keyEmpty, bgDemo, false⟩
    ∧ ((bgDemo.setResource ⟨2, 20⟩ 0).getGpuKey 5 layoutDemo).recomputed = true := by
  have hrev : bgDemo.RevBounded := by
    refine ⟨by decide, ?_⟩
    intro pk memo h
    by_cases h5 : pk = 5
    · subst h5
      have e : (⟨0, keyEmpty⟩ : GroupProgPair) = memo :=
        Option.some.inj (show some (⟨0, keyEmpty⟩ : GroupProgPair) = some memo from h)
      rw [← e]
      decide
    · exact absurd h (by simp [bgDemo, h5])
  have main := bindGroup_gpuKey_memoized bgDemo 5 layoutDemo hrev
  exact ⟨main.1 ⟨0, keyEmpty⟩ rfl rfl, main.2.1 ⟨2, 20⟩ 0 (by decide)⟩
